import Mathlib

/-!
Parcel store.

A shallow embedding of the parcel store of `parcel.go`: the six methods of
`ParcelStore` (`Add`, `Get`, `GetByClient`, `SetStatus`, `SetAddress`,
`Delete`) over an explicit model of the `parcel` table.

* The database handle `s.db` becomes a pair of a `Driver` (which driver call,
  if any, reports a failure) and a `DB` (the contents of the table).
* Every SQL statement of the source is one function on `DB`, named after the
  statement, taking the named parameters the source binds.
* A Go result `(T, error)` is a pair `T × Option String`; `nil` is `none` and
  `fmt.Errorf` builds the message text.
* Methods that write return the new `DB` next to their Go result; methods that
  only read return no `DB`.
* Go `int` is taken to be 64 bits wide.
-/

namespace ParcelStore

/-! ## Data model -/

/-- Modelled from the spec: the `Parcel` struct, declared outside `parcel.go`;
its five fields are the ones `Get` scans into. -/
structure Parcel where
  Number : Int
  Client : Int
  Status : String
  Address : String
  CreatedAt : String
deriving DecidableEq, Repr

/-- The Go zero value `Parcel{}`. -/
def Parcel.zero : Parcel := ⟨0, 0, "", "", ""⟩

/-- Modelled from the spec: the status constant declared outside `parcel.go`. -/
def ParcelStatusRegistered : String := "registered"

/-- Modelled from the spec: the status constant declared outside `parcel.go`. -/
def ParcelStatusSent : String := "sent"

/-- Modelled from the spec: the status constant declared outside `parcel.go`. -/
def ParcelStatusDelivered : String := "delivered"

/-- Modelled from the spec: the `parcel` table, whose schema is not among the
sources: `parcel(number PK auto-assigned, client, status, address, created_at)`.
`rows` are the stored rows in insertion order, `seq` is the largest number the
auto-increment has handed out so far. -/
structure DB where
  rows : List Parcel
  seq : Nat
deriving DecidableEq, Repr

/-- The primary-key constraint on `number`: no two rows share a number. -/
def DB.WF (db : DB) : Prop := (db.rows.map Parcel.Number).Nodup

instance (db : DB) : Decidable db.WF := by
  unfold DB.WF
  infer_instance

/-- Which driver calls fail during one method call, and with what message.
`none` everywhere is a driver that raises no error. -/
structure Driver where
  prepareErr : Option String
  execErr : Option String
  lastInsertIdErr : Option String
  queryErr : Option String
  scanErr : Option String
  rowsErr : Option String
deriving DecidableEq, Repr

/-- A driver that raises no driver-level error. -/
def Driver.noFault : Driver := ⟨none, none, none, none, none, none⟩

/-! ## The SQL statements -/

/-- Largest value of a signed 64-bit integer. -/
def maxInt64 : Int := 9223372036854775807

/-- The Go conversion `int(id)` of an `int64`, for a 64-bit `int`. -/
def int (id : Int) : Int := (id + 9223372036854775808) % 18446744073709551616 - 9223372036854775808

/-- Largest number among the rows, `0` when there is none above it. -/
def maxNumber (rows : List Parcel) : Int :=
  rows.foldr (fun r m => max r.Number m) 0

/-- Modelled from the spec: the number the auto-increment primary key assigns
to the next inserted row: one more than every number in the table and every
number handed out before. -/
def DB.nextNumber (db : DB) : Int := max (db.seq : Int) (maxNumber db.rows) + 1

/-- Statement
`INSERT INTO parcel (client, status, address, created_at) VALUES (...)`:
appends a row under the next number; the engine refuses when the number no
longer fits 64 bits. Returns the inserted number (`LastInsertId`). -/
def DB.insert (db : DB) (client : Int) (status address created_at : String) :
    Except String (Int × DB) :=
  let id := db.nextNumber
  if id > maxInt64 then .error "database or disk is full"
  else .ok (id, { rows := db.rows ++ [⟨id, client, status, address, created_at⟩],
                  seq := id.toNat })

/-- Statement `SELECT ... FROM parcel WHERE number = :number`. -/
def DB.selectByNumber (db : DB) (number : Int) : List Parcel :=
  db.rows.filter (fun r => decide (r.Number = number))

/-- Statement `SELECT ... FROM parcel WHERE client = :client`. -/
def DB.selectByClient (db : DB) (client : Int) : List Parcel :=
  db.rows.filter (fun r => decide (r.Client = client))

/-- Statement `UPDATE parcel SET status = :status WHERE number = :number`. -/
def DB.updateStatus (db : DB) (status : String) (number : Int) : DB :=
  { db with rows := db.rows.map (fun r =>
      if r.Number = number then { r with Status := status } else r) }

/-- Statement
`UPDATE parcel SET address = :address WHERE number = :number AND status = :status`. -/
def DB.updateAddress (db : DB) (address : String) (number : Int) (status : String) : DB :=
  { db with rows := db.rows.map (fun r =>
      if r.Number = number ∧ r.Status = status then { r with Address := address } else r) }

/-- Statement `DELETE FROM parcel WHERE number = :number AND status = :status`. -/
def DB.delete (db : DB) (number : Int) (status : String) : DB :=
  { db with rows := db.rows.filter (fun r =>
      !(decide (r.Number = number ∧ r.Status = status))) }

/-! ## The driver calls -/

/-- The call `stmt.Exec` of the insert: a driver failure leaves the table as it
was, otherwise the statement runs. -/
def Driver.ExecInsert (d : Driver) (db : DB) (client : Int)
    (status address created_at : String) : Except String (Int × DB) :=
  match d.execErr with
  | some e => .error e
  | none => db.insert client status address created_at

/-- The call `stmt.Exec` of an update or delete `run`: a driver failure leaves
the table as it was, otherwise the statement runs. -/
def Driver.Exec (d : Driver) (db : DB) (run : DB → DB) : Option String × DB :=
  match d.execErr with
  | some e => (some e, db)
  | none => (none, run db)

/-- Outcome of `row.Scan` after `stmt.QueryRow`. -/
inductive ScanResult where
  | row (p : Parcel)
  | errNoRows
  | failed (msg : String)
deriving DecidableEq, Repr

/-- The calls `stmt.QueryRow(...)` then `row.Scan(...)` over the rows the query
selects: a query failure is reported by `Scan`; with no row, `Scan` reports the
iteration error if there is one and `sql.ErrNoRows` otherwise; else it scans
the first row. -/
def Driver.QueryRowScan (d : Driver) (selected : List Parcel) : ScanResult :=
  match d.queryErr with
  | some e => .failed e
  | none =>
    match selected with
    | [] =>
      match d.rowsErr with
      | some e => .failed e
      | none => .errNoRows
    | r :: _ =>
      match d.scanErr with
      | some e => .failed e
      | none => .row r

/-- The loop `for rows.Next() { rows.Scan(...); parcels = append(parcels, p) }`
over the rows still to come, with the slice built so far. -/
def Driver.scanLoop (d : Driver) : List Parcel → List Parcel → Except String (List Parcel)
  | [], parcels => .ok parcels
  | r :: rest, parcels =>
    match d.scanErr with
    | some e => .error e
    | none => d.scanLoop rest (parcels ++ [r])

/-! ## The methods of `ParcelStore` -/

/-- Method `ParcelStore.Add`. -/
def Add (d : Driver) (db : DB) (p : Parcel) : (Int × Option String) × DB :=
  match d.prepareErr with
  | some err => ((0, some ("error preparing insert statement: " ++ err)), db)
  | none =>
    match d.ExecInsert db p.Client p.Status p.Address p.CreatedAt with
    | .error err => ((0, some ("error executing insert statement: " ++ err)), db)
    | .ok (id, db') =>
      match d.lastInsertIdErr with
      | some err => ((0, some ("error getting last insert ID: " ++ err)), db')
      | none => ((int id, none), db')

/-- Method `ParcelStore.Get`. -/
def Get (d : Driver) (db : DB) (number : Int) : Parcel × Option String :=
  match d.prepareErr with
  | some err => (Parcel.zero, some ("error preparing select statement: " ++ err))
  | none =>
    match d.QueryRowScan (db.selectByNumber number) with
    | .failed err => (Parcel.zero, some ("error scanning parcel: " ++ err))
    | .errNoRows => (Parcel.zero, some ("no parcel found with number " ++ toString number))
    | .row p => (p, none)

/-- Method `ParcelStore.GetByClient`. -/
def GetByClient (d : Driver) (db : DB) (client : Int) : List Parcel × Option String :=
  match d.prepareErr with
  | some err => ([], some ("error preparing query: " ++ err))
  | none =>
    match d.queryErr with
    | some err => ([], some ("error executing query: " ++ err))
    | none =>
      match d.scanLoop (db.selectByClient client) [] with
      | .error err => ([], some ("error scanning row: " ++ err))
      | .ok parcels =>
        match d.rowsErr with
        | some err => ([], some ("error during rows iteration: " ++ err))
        | none => (parcels, none)

/-- The map literal `validStatuses` of `SetStatus`. -/
def validStatuses : List (String × Bool) :=
  [(ParcelStatusRegistered, true), (ParcelStatusSent, true), (ParcelStatusDelivered, true)]

/-- Method `ParcelStore.SetStatus`. -/
def SetStatus (d : Driver) (db : DB) (number : Int) (status : String) : Option String × DB :=
  match validStatuses.lookup status with
  | none => (some ("invalid status '" ++ status ++ "' provided"), db)
  | some _ =>
    match d.prepareErr with
    | some err => (some ("error preparing update statement: " ++ err), db)
    | none =>
      match d.Exec db (fun t => t.updateStatus status number) with
      | (some err, db') =>
        (some ("error executing update statement with named parameters: " ++ err), db')
      | (none, db') => (none, db')

/-- Method `ParcelStore.SetAddress`. -/
def SetAddress (d : Driver) (db : DB) (number : Int) (address : String) : Option String × DB :=
  match d.prepareErr with
  | some err => (some ("error preparing update statement: " ++ err), db)
  | none =>
    match d.Exec db (fun t => t.updateAddress address number ParcelStatusRegistered) with
    | (some err, db') =>
      (some ("error executing update statement with named parameters: " ++ err), db')
    | (none, db') => (none, db')

/-- Method `ParcelStore.Delete`. -/
def Delete (d : Driver) (db : DB) (number : Int) : Option String × DB :=
  match d.prepareErr with
  | some err => (some ("error preparing delete statement: " ++ err), db)
  | none =>
    match d.Exec db (fun t => t.delete number ParcelStatusRegistered) with
    | (some err, db') =>
      (some ("error executing delete statement with named parameters: " ++ err), db')
    | (none, db') => (none, db')

/-- Every row carries one of the three statuses. -/
def DB.StatusesValid (db : DB) : Prop :=
  ∀ r ∈ db.rows, r.Status = "registered" ∨ r.Status = "sent" ∨ r.Status = "delivered"

instance (db : DB) : Decidable db.StatusesValid := by
  unfold DB.StatusesValid
  infer_instance

/-! ## Auxiliary facts -/

theorem le_maxNumber (rows : List Parcel) : ∀ r ∈ rows, r.Number ≤ maxNumber rows := by
  induction rows with
  | nil => intro r hr; cases hr
  | cons a t ih =>
    intro r hr
    simp only [maxNumber, List.foldr_cons]
    rcases List.mem_cons.mp hr with h | h
    · subst h; exact le_max_left _ _
    · exact le_trans (ih r h) (le_max_right _ _)

theorem maxNumber_nonneg (rows : List Parcel) : 0 ≤ maxNumber rows := by
  induction rows with
  | nil => simp [maxNumber]
  | cons a t ih =>
    simp only [maxNumber, List.foldr_cons]
    exact le_trans ih (le_max_right _ _)

theorem nextNumber_pos (db : DB) : 1 ≤ db.nextNumber := by
  have h := maxNumber_nonneg db.rows
  unfold DB.nextNumber
  omega

theorem lt_nextNumber (db : DB) : ∀ r ∈ db.rows, r.Number < db.nextNumber := by
  intro r hr
  have h := le_maxNumber db.rows r hr
  unfold DB.nextNumber
  omega

theorem int_eq_self (id : Int) (h1 : 1 ≤ id) (h2 : id ≤ maxInt64) : int id = id := by
  unfold maxInt64 at h2
  unfold int
  omega

/-- What a successful `Add` did: the number is the next one and the table has
gained exactly the new row at its end. -/
theorem Add_ok (d : Driver) (db db' : DB) (p : Parcel) (id : Int)
    (h : Add d db p = ((id, none), db')) :
    id = db.nextNumber ∧
    db' = ⟨db.rows ++ [⟨id, p.Client, p.Status, p.Address, p.CreatedAt⟩], id.toNat⟩ := by
  unfold Add at h
  cases hp : d.prepareErr with
  | some e => simp [hp] at h
  | none =>
    simp only [hp] at h
    cases he : d.ExecInsert db p.Client p.Status p.Address p.CreatedAt with
    | error e => simp [he] at h
    | ok v =>
      obtain ⟨i, t⟩ := v
      simp only [he] at h
      cases hl : d.lastInsertIdErr with
      | some e => simp [hl] at h
      | none =>
        simp only [hl, Prod.mk.injEq, and_true] at h
        obtain ⟨h1, h2⟩ := h
        unfold Driver.ExecInsert at he
        cases hx : d.execErr with
        | some e => simp [hx] at he
        | none =>
          simp only [hx] at he
          unfold DB.insert at he
          simp only at he
          split at he
          · simp at he
          · rename_i hle
            simp only [Except.ok.injEq, Prod.mk.injEq] at he
            obtain ⟨hi, ht⟩ := he
            have hid : int db.nextNumber = db.nextNumber :=
              int_eq_self _ (nextNumber_pos db) (by omega)
            subst hi
            rw [hid] at h1
            subst h1
            subst h2
            exact ⟨rfl, ht.symm⟩

theorem selectByNumber_eq_nil (db : DB) (n : Int) (h : ∀ r ∈ db.rows, r.Number ≠ n) :
    db.selectByNumber n = [] := by
  unfold DB.selectByNumber
  rw [List.filter_eq_nil_iff]
  intro r hr
  simpa using h r hr

/-- Get with a fault-free driver, in terms of the rows selected. -/
theorem Get_noFault (db : DB) (n : Int) :
    Get Driver.noFault db n =
      match db.selectByNumber n with
      | [] => (Parcel.zero, some ("no parcel found with number " ++ toString n))
      | r :: _ => (r, none) := by
  unfold Get Driver.QueryRowScan
  simp only [Driver.noFault]
  cases db.selectByNumber n <;> rfl

/-- Under the primary-key constraint a number names at most one row. -/
theorem WF_unique (db : DB) (hwf : db.WF) (r r' : Parcel) (hr : r ∈ db.rows)
    (hr' : r' ∈ db.rows) (h : r.Number = r'.Number) : r = r' :=
  List.inj_on_of_nodup_map hwf hr hr' h

theorem lookup_invalid (status : String) (h1 : status ≠ "registered") (h2 : status ≠ "sent")
    (h3 : status ≠ "delivered") : validStatuses.lookup status = none := by
  have e1 : (status == "registered") = false := by simpa using h1
  have e2 : (status == "sent") = false := by simpa using h2
  have e3 : (status == "delivered") = false := by simpa using h3
  simp only [validStatuses, List.lookup, ParcelStatusRegistered, ParcelStatusSent,
    ParcelStatusDelivered, e1, e2, e3]

theorem lookup_valid (status : String)
    (h : status = "registered" ∨ status = "sent" ∨ status = "delivered") :
    validStatuses.lookup status = some true := by
  rcases h with h | h | h <;> subst h <;> decide

/-- The guarded update touches nothing when no row meets the guard. -/
theorem updateAddress_eq_self (db : DB) (a : String) (n : Int) (st : String)
    (h : ∀ r ∈ db.rows, r.Number = n → r.Status ≠ st) : db.updateAddress a n st = db := by
  unfold DB.updateAddress
  have : db.rows.map (fun r =>
      if r.Number = n ∧ r.Status = st then { r with Address := a } else r) = db.rows := by
    conv_rhs => rw [← List.map_id db.rows]
    apply List.map_congr_left
    intro r hr
    have := h r hr
    simp only [id]
    rw [if_neg]
    rintro ⟨h1, h2⟩
    exact this h1 h2
  rw [this]

/-- The guarded delete removes nothing when no row meets the guard. -/
theorem delete_eq_self (db : DB) (n : Int) (st : String)
    (h : ∀ r ∈ db.rows, r.Number = n → r.Status ≠ st) : db.delete n st = db := by
  unfold DB.delete
  have : db.rows.filter (fun r => !(decide (r.Number = n ∧ r.Status = st))) = db.rows := by
    rw [List.filter_eq_self]
    intro r hr
    have := h r hr
    simp only [Bool.not_eq_true', decide_eq_false_iff_not]
    rintro ⟨h1, h2⟩
    exact this h1 h2
  rw [this]

/-- The table after `SetAddress`: untouched, or the guarded update applied. -/
theorem SetAddress_db (d : Driver) (db : DB) (n : Int) (a : String) :
    (SetAddress d db n a).2 = db ∨
    (SetAddress d db n a).2 = db.updateAddress a n ParcelStatusRegistered := by
  unfold SetAddress Driver.Exec
  cases d.prepareErr <;> cases d.execErr <;> simp

/-- The table after `Delete`: untouched, or the guarded delete applied. -/
theorem Delete_db (d : Driver) (db : DB) (n : Int) :
    (Delete d db n).2 = db ∨ (Delete d db n).2 = db.delete n ParcelStatusRegistered := by
  unfold Delete Driver.Exec
  cases d.prepareErr <;> cases d.execErr <;> simp

/-- The table after `SetStatus`: untouched, or the update applied. -/
theorem SetStatus_db (d : Driver) (db : DB) (n : Int) (s : String) :
    (SetStatus d db n s).2 = db ∨ (SetStatus d db n s).2 = db.updateStatus s n := by
  unfold SetStatus Driver.Exec
  cases validStatuses.lookup s <;> cases d.prepareErr <;> cases d.execErr <;> simp

/-- Selecting by number commutes with a row update that keeps numbers. -/
theorem filter_number_map (f : Parcel → Parcel) (hf : ∀ r, (f r).Number = r.Number)
    (m : Int) (l : List Parcel) :
    (l.map f).filter (fun r => decide (r.Number = m))
      = (l.filter (fun r => decide (r.Number = m))).map f := by
  induction l with
  | nil => rfl
  | cons a t ih =>
    by_cases h : a.Number = m
    · simp [List.filter_cons, hf, h, ih]
    · simp [List.filter_cons, hf, h, ih]

/-- Under the primary key, selecting the number of a stored row yields that row
alone. -/
theorem filter_number_of_mem (l : List Parcel) (h : (l.map Parcel.Number).Nodup)
    (r : Parcel) (hr : r ∈ l) : l.filter (fun x => decide (x.Number = r.Number)) = [r] := by
  induction l with
  | nil => cases hr
  | cons a t ih =>
    rw [List.map_cons, List.nodup_cons] at h
    obtain ⟨hnot, hnd⟩ := h
    rcases List.mem_cons.mp hr with heq | hmem
    · subst heq
      have ht : t.filter (fun x => decide (x.Number = r.Number)) = [] := by
        rw [List.filter_eq_nil_iff]
        intro x hx hx'
        apply hnot
        have : x.Number = r.Number := by simpa using hx'
        rw [← this]
        exact List.mem_map_of_mem _ hx
      simp [List.filter_cons, ht]
    · have hne : a.Number ≠ r.Number := by
        intro he
        apply hnot
        rw [he]
        exact List.mem_map_of_mem _ hmem
      simp [List.filter_cons, hne, ih hnd hmem]

theorem selectByNumber_of_mem (db : DB) (hwf : db.WF) (r : Parcel) (hr : r ∈ db.rows) :
    db.selectByNumber r.Number = [r] :=
  filter_number_of_mem db.rows hwf r hr

theorem SetStatus_noFault (db : DB) (n : Int) (s : String)
    (hs : s = "registered" ∨ s = "sent" ∨ s = "delivered") :
    SetStatus Driver.noFault db n s = (none, db.updateStatus s n) := by
  unfold SetStatus
  rw [lookup_valid s hs]
  rfl

theorem SetAddress_noFault (db : DB) (n : Int) (a : String) :
    SetAddress Driver.noFault db n a = (none, db.updateAddress a n ParcelStatusRegistered) :=
  rfl

theorem Delete_noFault (db : DB) (n : Int) :
    Delete Driver.noFault db n = (none, db.delete n ParcelStatusRegistered) :=
  rfl

theorem scanLoop_noFault (l parcels : List Parcel) :
    Driver.noFault.scanLoop l parcels = .ok (parcels ++ l) := by
  induction l generalizing parcels with
  | nil => simp [Driver.scanLoop]
  | cons a t ih =>
    unfold Driver.scanLoop
    simp only [Driver.noFault]
    have := ih (parcels ++ [a])
    simp only [Driver.noFault] at this
    rw [this]
    simp

/-- GetByClient with a fault-free driver returns the selected rows. -/
theorem GetByClient_noFault (db : DB) (c : Int) :
    GetByClient Driver.noFault db c = (db.selectByClient c, none) := by
  unfold GetByClient
  have h := scanLoop_noFault (db.selectByClient c) []
  simp only [Driver.noFault] at h ⊢
  rw [h]
  simp

theorem selectByClient_eq_nil (db : DB) (c : Int) (h : ∀ r ∈ db.rows, r.Client ≠ c) :
    db.selectByClient c = [] := by
  unfold DB.selectByClient
  rw [List.filter_eq_nil_iff]
  intro r hr
  simpa using h r hr

/-- A successful `Add` returns a number above every number in the table. -/
theorem Add_fresh (d : Driver) (db db' : DB) (p : Parcel) (id : Int)
    (h : Add d db p = ((id, none), db')) : ∀ r ∈ db.rows, r.Number < id := by
  obtain ⟨hid, _⟩ := Add_ok d db db' p id h
  rw [hid]
  exact lt_nextNumber db

/-- The status update touches nothing when no row has the number. -/
theorem updateStatus_eq_self (db : DB) (s : String) (n : Int)
    (h : ∀ r ∈ db.rows, r.Number ≠ n) : db.updateStatus s n = db := by
  unfold DB.updateStatus
  have : db.rows.map (fun r => if r.Number = n then { r with Status := s } else r)
      = db.rows := by
    conv_rhs => rw [← List.map_id db.rows]
    apply List.map_congr_left
    intro r hr
    simp only [id]
    rw [if_neg (h r hr)]
  rw [this]

/-- A successful `Add` keeps every stored row and appends one. -/
theorem Add_rows (d : Driver) (db : DB) (p : Parcel) :
    (Add d db p).2.rows = db.rows ∨
    (Add d db p).2.rows
      = db.rows ++ [⟨db.nextNumber, p.Client, p.Status, p.Address, p.CreatedAt⟩] := by
  unfold Add Driver.ExecInsert DB.insert
  by_cases hfull : db.nextNumber > maxInt64
  · cases d.prepareErr <;> cases d.execErr <;> cases d.lastInsertIdErr <;> simp [hfull]
  · cases d.prepareErr <;> cases d.execErr <;> cases d.lastInsertIdErr <;> simp [hfull]

/-- The table after `SetStatus`: untouched, or updated with a status of the
closed set. -/
theorem SetStatus_db_valid (d : Driver) (db : DB) (n : Int) (s : String) :
    (SetStatus d db n s).2 = db ∨
    ((s = "registered" ∨ s = "sent" ∨ s = "delivered") ∧
      (SetStatus d db n s).2 = db.updateStatus s n) := by
  by_cases hs : s = "registered" ∨ s = "sent" ∨ s = "delivered"
  · rcases SetStatus_db d db n s with e | e
    · exact Or.inl e
    · exact Or.inr ⟨hs, e⟩
  · left
    have h1 : s ≠ "registered" := fun e => hs (Or.inl e)
    have h2 : s ≠ "sent" := fun e => hs (Or.inr (Or.inl e))
    have h3 : s ≠ "delivered" := fun e => hs (Or.inr (Or.inr e))
    unfold SetStatus
    rw [lookup_invalid s h1 h2 h3]

/-- The part of the status invariant that the code keeps: `SetStatus`,
`SetAddress` and `Delete` preserve it for every argument and driver, and `Add`
preserves it when the parcel handed in carries a status of the closed set. -/
theorem statusesValid_preserved (d : Driver) (db : DB) (n : Int) (s a : String) (p : Parcel)
    (h : db.StatusesValid) :
    (SetStatus d db n s).2.StatusesValid ∧
    (SetAddress d db n a).2.StatusesValid ∧
    (Delete d db n).2.StatusesValid ∧
    ((p.Status = "registered" ∨ p.Status = "sent" ∨ p.Status = "delivered") →
      (Add d db p).2.StatusesValid) := by
  refine ⟨?_, ?_, ?_, ?_⟩
  · rcases SetStatus_db_valid d db n s with e | ⟨hs, e⟩
    · rw [e]; exact h
    · rw [e]
      intro r hr
      unfold DB.updateStatus at hr
      simp only [List.mem_map] at hr
      obtain ⟨x, hx, rfl⟩ := hr
      by_cases hn : x.Number = n
      · rw [if_pos hn]; exact hs
      · rw [if_neg hn]; exact h x hx
  · rcases SetAddress_db d db n a with e | e
    · rw [e]; exact h
    · rw [e]
      intro r hr
      unfold DB.updateAddress at hr
      simp only [List.mem_map] at hr
      obtain ⟨x, hx, rfl⟩ := hr
      split
      · exact h x hx
      · exact h x hx
  · rcases Delete_db d db n with e | e
    · rw [e]; exact h
    · rw [e]
      intro r hr
      unfold DB.delete at hr
      exact h r (List.mem_filter.mp hr).1
  · intro hp
    intro r hr
    rcases Add_rows d db p with e | e
    · rw [e] at hr; exact h r hr
    · rw [e, List.mem_append] at hr
      rcases hr with hr | hr
      · exact h r hr
      · rw [List.mem_singleton] at hr
        subst hr
        exact hp

/-- Every operation keeps the primary-key constraint. -/
theorem WF_preserved (d : Driver) (db : DB) (n : Int) (s a : String) (p : Parcel)
    (h : db.WF) :
    (SetStatus d db n s).2.WF ∧ (SetAddress d db n a).2.WF ∧
    (Delete d db n).2.WF ∧ (Add d db p).2.WF := by
  unfold DB.WF at h
  refine ⟨?_, ?_, ?_, ?_⟩
  · rcases SetStatus_db d db n s with e | e
    · rw [e]; exact h
    · rw [e]
      unfold DB.WF DB.updateStatus
      have : (db.rows.map (fun r =>
          if r.Number = n then { r with Status := s } else r)).map Parcel.Number
          = db.rows.map Parcel.Number := by
        rw [List.map_map]
        apply List.map_congr_left
        intro r _
        simp only [Function.comp]
        split <;> rfl
      rw [this]; exact h
  · rcases SetAddress_db d db n a with e | e
    · rw [e]; exact h
    · rw [e]
      unfold DB.WF DB.updateAddress
      have : (db.rows.map (fun r =>
          if r.Number = n ∧ r.Status = ParcelStatusRegistered
            then { r with Address := a } else r)).map Parcel.Number
          = db.rows.map Parcel.Number := by
        rw [List.map_map]
        apply List.map_congr_left
        intro r _
        simp only [Function.comp]
        split <;> rfl
      rw [this]; exact h
  · rcases Delete_db d db n with e | e
    · rw [e]; exact h
    · rw [e]
      unfold DB.WF DB.delete
      exact List.Nodup.sublist (List.Sublist.map _ (List.filter_sublist _)) h
  · unfold DB.WF
    rcases Add_rows d db p with e | e
    · rw [e]; exact h
    · rw [e, List.map_append, List.nodup_append]
      refine ⟨h, by simp, ?_⟩
      intro x hx hx'
      simp only [List.map_cons, List.map_nil, List.mem_singleton] at hx'
      rw [List.mem_map] at hx
      obtain ⟨r, hr, rfl⟩ := hx
      have := lt_nextNumber db r hr
      omega

/-! ## Claims -/

/-- C1. Add-then-Get round trip: whenever `Add p` succeeds with number `id`
(whatever `p.Number` was), `id` is non-zero, no row of the table before the
call was numbered `id`, and `Get id` on the resulting table, with a driver that
raises no error, returns without error the parcel numbered `id` whose client,
status, address and creation time are those of `p`. -/
theorem add_get_roundtrip (d : Driver) (db db' : DB) (p : Parcel) (id : Int)
    (h : Add d db p = ((id, none), db')) :
    id ≠ 0 ∧ (∀ r ∈ db.rows, r.Number ≠ id) ∧
    Get Driver.noFault db' id = (⟨id, p.Client, p.Status, p.Address, p.CreatedAt⟩, none) := by
  obtain ⟨hid, hdb⟩ := Add_ok d db db' p id h
  have hpos := nextNumber_pos db
  have hfresh : ∀ r ∈ db.rows, r.Number ≠ id := by
    intro r hr
    have := lt_nextNumber db r hr
    omega
  refine ⟨by omega, hfresh, ?_⟩
  rw [Get_noFault]
  have hsel : db'.selectByNumber id = [⟨id, p.Client, p.Status, p.Address, p.CreatedAt⟩] := by
    have h0 := selectByNumber_eq_nil db id hfresh
    unfold DB.selectByNumber at h0 ⊢
    rw [hdb]
    simp only [List.filter_append, h0, List.nil_append]
    simp [List.filter]
  rw [hsel]

/-- Witness for C1: adding a parcel that carries a stale number 7 to a table
holding parcel 1. -/
theorem add_get_roundtrip_witness :
    (2 : Int) ≠ 0 ∧ (∀ r ∈ (⟨[⟨1, 5, "sent", "x", "t0"⟩], 1⟩ : DB).rows, r.Number ≠ 2) ∧
    Get Driver.noFault ⟨[⟨1, 5, "sent", "x", "t0"⟩, ⟨2, 9, "registered", "a", "t"⟩], 2⟩ 2
      = (⟨2, 9, "registered", "a", "t"⟩, none) :=
  add_get_roundtrip Driver.noFault ⟨[⟨1, 5, "sent", "x", "t0"⟩], 1⟩
    ⟨[⟨1, 5, "sent", "x", "t0"⟩, ⟨2, 9, "registered", "a", "t"⟩], 2⟩
    ⟨7, 9, "registered", "a", "t"⟩ 2 (by decide)

/-- C2. The status invariant does not survive `Add`: on the empty table, whose
rows all carry a status of the closed set, `Add` of a parcel with status
`bogus` succeeds with number 1 and stores the row as given, so the resulting
table has a row whose status is none of `registered`, `sent`, `delivered`. -/
theorem add_stores_invalid_status :
    (⟨[], 0⟩ : DB).StatusesValid ∧
    Add Driver.noFault ⟨[], 0⟩ ⟨0, 1, "bogus", "a", "t"⟩
      = ((1, none), ⟨[⟨1, 1, "bogus", "a", "t"⟩], 1⟩) ∧
    ¬ (Add Driver.noFault ⟨[], 0⟩ ⟨0, 1, "bogus", "a", "t"⟩).2.StatusesValid := by
  decide

/-- C3. Invalid status is rejected atomically: for every driver (failing or
not), table, number and status string that is not exactly `registered`, `sent`
or `delivered`, `SetStatus` returns the validation error and the table is the
one before the call. -/
theorem setStatus_invalid_rejected (d : Driver) (db : DB) (n : Int) (status : String)
    (h1 : status ≠ "registered") (h2 : status ≠ "sent") (h3 : status ≠ "delivered") :
    SetStatus d db n status = (some ("invalid status '" ++ status ++ "' provided"), db) := by
  unfold SetStatus
  rw [lookup_invalid status h1 h2 h3]

/-- Witness for C3: the statuses `bogus`, `Sent` and the empty string, against
a table holding a registered parcel 1. -/
theorem setStatus_invalid_rejected_witness :
    SetStatus Driver.noFault ⟨[⟨1, 5, "registered", "x", "t0"⟩], 1⟩ 1 "bogus"
      = (some "invalid status 'bogus' provided", ⟨[⟨1, 5, "registered", "x", "t0"⟩], 1⟩) ∧
    SetStatus Driver.noFault ⟨[⟨1, 5, "registered", "x", "t0"⟩], 1⟩ 1 "Sent"
      = (some "invalid status 'Sent' provided", ⟨[⟨1, 5, "registered", "x", "t0"⟩], 1⟩) ∧
    SetStatus Driver.noFault ⟨[⟨1, 5, "registered", "x", "t0"⟩], 1⟩ 1 ""
      = (some "invalid status '' provided", ⟨[⟨1, 5, "registered", "x", "t0"⟩], 1⟩) :=
  ⟨setStatus_invalid_rejected _ _ 1 "bogus" (by decide) (by decide) (by decide),
   setStatus_invalid_rejected _ _ 1 "Sent" (by decide) (by decide) (by decide),
   setStatus_invalid_rejected _ _ 1 "" (by decide) (by decide) (by decide)⟩

/-- C4. Guard enforcement: in a table satisfying its primary key, when the row
numbered `n` has a status other than `registered`, then for every driver and
every address `SetAddress n addr` leaves the whole table (so that row and its
address) unchanged, and `Delete n` leaves the whole table unchanged, the row
still being there. -/
theorem guard_enforcement (d : Driver) (db : DB) (n : Int) (addr : String) (r : Parcel)
    (hwf : db.WF) (hr : r ∈ db.rows) (hn : r.Number = n) (hs : r.Status ≠ "registered") :
    (SetAddress d db n addr).2 = db ∧ (Delete d db n).2 = db ∧
    r ∈ (SetAddress d db n addr).2.rows ∧ r ∈ (Delete d db n).2.rows := by
  have hall : ∀ r' ∈ db.rows, r'.Number = n → r'.Status ≠ ParcelStatusRegistered := by
    intro r' hr' hn'
    have : r = r' := WF_unique db hwf r r' hr hr' (by rw [hn, hn'])
    subst this
    exact hs
  have h1 : (SetAddress d db n addr).2 = db := by
    rcases SetAddress_db d db n addr with h | h
    · exact h
    · rw [h, updateAddress_eq_self db addr n _ hall]
  have h2 : (Delete d db n).2 = db := by
    rcases Delete_db d db n with h | h
    · exact h
    · rw [h, delete_eq_self db n _ hall]
  refine ⟨h1, h2, ?_, ?_⟩
  · rw [h1]; exact hr
  · rw [h2]; exact hr

/-- Witness for C4: parcel 1 is already sent. -/
theorem guard_enforcement_witness :
    (SetAddress Driver.noFault ⟨[⟨1, 5, "sent", "x", "t0"⟩], 1⟩ 1 "y").2
      = ⟨[⟨1, 5, "sent", "x", "t0"⟩], 1⟩ ∧
    (Delete Driver.noFault ⟨[⟨1, 5, "sent", "x", "t0"⟩], 1⟩ 1).2
      = ⟨[⟨1, 5, "sent", "x", "t0"⟩], 1⟩ ∧
    (⟨1, 5, "sent", "x", "t0"⟩ : Parcel) ∈
      (SetAddress Driver.noFault ⟨[⟨1, 5, "sent", "x", "t0"⟩], 1⟩ 1 "y").2.rows ∧
    (⟨1, 5, "sent", "x", "t0"⟩ : Parcel) ∈
      (Delete Driver.noFault ⟨[⟨1, 5, "sent", "x", "t0"⟩], 1⟩ 1).2.rows :=
  guard_enforcement Driver.noFault ⟨[⟨1, 5, "sent", "x", "t0"⟩], 1⟩ 1 "y"
    ⟨1, 5, "sent", "x", "t0"⟩ (by decide) (by decide) (by decide) (by decide)

/-- C5. Status update: when the table holds a row numbered `n`, whatever its
status, and `s` is one of `registered`, `sent`, `delivered`, then with a driver
that raises no error `SetStatus n s` returns no error and a following `Get n`
returns without error a parcel numbered `n` with status `s`; no order of
transitions is checked. -/
theorem setStatus_then_get (db : DB) (n : Int) (s : String) (r : Parcel)
    (hr : r ∈ db.rows) (hn : r.Number = n)
    (hs : s = "registered" ∨ s = "sent" ∨ s = "delivered") :
    (SetStatus Driver.noFault db n s).1 = none ∧
    (Get Driver.noFault (SetStatus Driver.noFault db n s).2 n).2 = none ∧
    (Get Driver.noFault (SetStatus Driver.noFault db n s).2 n).1.Status = s ∧
    (Get Driver.noFault (SetStatus Driver.noFault db n s).2 n).1.Number = n := by
  rw [SetStatus_noFault db n s hs, Get_noFault]
  have hsel : (db.updateStatus s n).selectByNumber n
      = (db.selectByNumber n).map
          (fun r => if r.Number = n then { r with Status := s } else r) := by
    unfold DB.selectByNumber DB.updateStatus
    apply filter_number_map
    intro x
    split <;> rfl
  rw [hsel]
  have hmem : r ∈ db.selectByNumber n := by
    unfold DB.selectByNumber
    rw [List.mem_filter]
    exact ⟨hr, by simpa using hn⟩
  cases hl : db.selectByNumber n with
  | nil => rw [hl] at hmem; cases hmem
  | cons a t =>
    have ha : a ∈ db.selectByNumber n := by rw [hl]; exact List.mem_cons_self _ _
    unfold DB.selectByNumber at ha
    rw [List.mem_filter] at ha
    have han : a.Number = n := by simpa using ha.2
    simp [han]

/-- Witness for C5: a delivered parcel is set back to registered. -/
theorem setStatus_then_get_witness :
    (SetStatus Driver.noFault ⟨[⟨1, 5, "delivered", "x", "t0"⟩], 1⟩ 1 "registered").1 = none ∧
    (Get Driver.noFault
      (SetStatus Driver.noFault ⟨[⟨1, 5, "delivered", "x", "t0"⟩], 1⟩ 1 "registered").2 1).2
        = none ∧
    (Get Driver.noFault
      (SetStatus Driver.noFault ⟨[⟨1, 5, "delivered", "x", "t0"⟩], 1⟩ 1 "registered").2 1).1.Status
        = "registered" ∧
    (Get Driver.noFault
      (SetStatus Driver.noFault ⟨[⟨1, 5, "delivered", "x", "t0"⟩], 1⟩ 1 "registered").2 1).1.Number
        = 1 :=
  setStatus_then_get ⟨[⟨1, 5, "delivered", "x", "t0"⟩], 1⟩ 1 "registered"
    ⟨1, 5, "delivered", "x", "t0"⟩ (by decide) (by decide) (by decide)

/-- C6. Address update: in a table satisfying its primary key, when the row `r`
numbered `n` has status `registered`, then with a driver that raises no error
`SetAddress n addr2` returns no error and a following `Get n` returns without
error that row with its address replaced by `addr2`. -/
theorem setAddress_then_get (db : DB) (n : Int) (addr2 : String) (r : Parcel)
    (hwf : db.WF) (hr : r ∈ db.rows) (hn : r.Number = n) (hs : r.Status = "registered") :
    (SetAddress Driver.noFault db n addr2).1 = none ∧
    Get Driver.noFault (SetAddress Driver.noFault db n addr2).2 n
      = ({ r with Address := addr2 }, none) ∧
    (Get Driver.noFault (SetAddress Driver.noFault db n addr2).2 n).1.Address = addr2 := by
  have hget : Get Driver.noFault (SetAddress Driver.noFault db n addr2).2 n
      = ({ r with Address := addr2 }, none) := by
    rw [SetAddress_noFault, Get_noFault]
    have hsel : (db.updateAddress addr2 n ParcelStatusRegistered).selectByNumber n
        = (db.selectByNumber n).map
            (fun r => if r.Number = n ∧ r.Status = ParcelStatusRegistered
              then { r with Address := addr2 } else r) := by
      unfold DB.selectByNumber DB.updateAddress
      apply filter_number_map
      intro x
      split <;> rfl
    have hone := selectByNumber_of_mem db hwf r hr
    rw [hn] at hone
    rw [hsel, hone]
    simp [hn, hs, ParcelStatusRegistered]
  refine ⟨rfl, hget, ?_⟩
  rw [hget]

/-- Witness for C6: the registered parcel 2 moves from `a` to `b`. -/
theorem setAddress_then_get_witness :
    (SetAddress Driver.noFault
      ⟨[⟨1, 5, "sent", "x", "t0"⟩, ⟨2, 9, "registered", "a", "t"⟩], 2⟩ 2 "b").1 = none ∧
    Get Driver.noFault (SetAddress Driver.noFault
      ⟨[⟨1, 5, "sent", "x", "t0"⟩, ⟨2, 9, "registered", "a", "t"⟩], 2⟩ 2 "b").2 2
      = ({ (⟨2, 9, "registered", "a", "t"⟩ : Parcel) with Address := "b" }, none) ∧
    (Get Driver.noFault (SetAddress Driver.noFault
      ⟨[⟨1, 5, "sent", "x", "t0"⟩, ⟨2, 9, "registered", "a", "t"⟩], 2⟩ 2 "b").2 2).1.Address
      = "b" :=
  setAddress_then_get ⟨[⟨1, 5, "sent", "x", "t0"⟩, ⟨2, 9, "registered", "a", "t"⟩], 2⟩ 2 "b"
    ⟨2, 9, "registered", "a", "t"⟩ (by decide) (by decide) (by decide) (by decide)

/-- C7. Post-delete lookup: in a table satisfying its primary key, when the row
numbered `n` has status `registered`, then with a driver that raises no error
`Delete n` returns no error and a following `Get n` takes the not-found branch:
it returns the zero parcel and the error `no parcel found with number n`. -/
theorem delete_then_get (db : DB) (n : Int) (r : Parcel)
    (hwf : db.WF) (hr : r ∈ db.rows) (hn : r.Number = n) (hs : r.Status = "registered") :
    (Delete Driver.noFault db n).1 = none ∧
    Get Driver.noFault (Delete Driver.noFault db n).2 n
      = (Parcel.zero, some ("no parcel found with number " ++ toString n)) := by
  refine ⟨rfl, ?_⟩
  rw [Delete_noFault, Get_noFault]
  have hnil : (db.delete n ParcelStatusRegistered).selectByNumber n = [] := by
    apply selectByNumber_eq_nil
    intro x hx hxn
    unfold DB.delete at hx
    rw [List.mem_filter] at hx
    obtain ⟨hxm, hxg⟩ := hx
    have : r = x := WF_unique db hwf r x hr hxm (by rw [hn, hxn])
    subst this
    simp [hn, hs, ParcelStatusRegistered] at hxg
  rw [hnil]

/-- Witness for C7: the registered parcel 2 is deleted and no longer found. -/
theorem delete_then_get_witness :
    (Delete Driver.noFault
      ⟨[⟨1, 5, "sent", "x", "t0"⟩, ⟨2, 9, "registered", "a", "t"⟩], 2⟩ 2).1 = none ∧
    Get Driver.noFault (Delete Driver.noFault
      ⟨[⟨1, 5, "sent", "x", "t0"⟩, ⟨2, 9, "registered", "a", "t"⟩], 2⟩ 2).2 2
      = (Parcel.zero, some ("no parcel found with number " ++ toString (2 : Int))) :=
  delete_then_get ⟨[⟨1, 5, "sent", "x", "t0"⟩, ⟨2, 9, "registered", "a", "t"⟩], 2⟩ 2
    ⟨2, 9, "registered", "a", "t"⟩ (by decide) (by decide) (by decide) (by decide)

/-- C8. Client filtering: for every table and client `c`, with a driver that
raises no error `GetByClient c` returns no error and, up to order, exactly the
stored rows whose client is `c`: each as often as it is stored, every field as
stored, and no row of another client; the result is empty, still without error,
when no row has client `c`. In particular, after three successful `Add`s of
parcels of a client `c` that no stored row had, it returns exactly those three,
under three distinct numbers, with the fields that were inserted. -/
theorem getByClient_filters (db : DB) (c : Int) :
    (GetByClient Driver.noFault db c).2 = none ∧
    List.Perm (GetByClient Driver.noFault db c).1
      (db.rows.filter (fun r => decide (r.Client = c))) ∧
    (∀ r, r ∈ (GetByClient Driver.noFault db c).1 ↔ r ∈ db.rows ∧ r.Client = c) ∧
    (∀ r, (GetByClient Driver.noFault db c).1.count r
        = if r.Client = c then db.rows.count r else 0) ∧
    ((∀ r ∈ db.rows, r.Client ≠ c) → GetByClient Driver.noFault db c = ([], none)) ∧
    (∀ (d1 d2 d3 : Driver) (p1 p2 p3 : Parcel) (i1 i2 i3 : Int) (db1 db2 db3 : DB),
      (∀ r ∈ db.rows, r.Client ≠ c) →
      p1.Client = c → p2.Client = c → p3.Client = c →
      Add d1 db p1 = ((i1, none), db1) →
      Add d2 db1 p2 = ((i2, none), db2) →
      Add d3 db2 p3 = ((i3, none), db3) →
      (GetByClient Driver.noFault db3 c).2 = none ∧
      List.Perm (GetByClient Driver.noFault db3 c).1
        [⟨i1, c, p1.Status, p1.Address, p1.CreatedAt⟩,
         ⟨i2, c, p2.Status, p2.Address, p2.CreatedAt⟩,
         ⟨i3, c, p3.Status, p3.Address, p3.CreatedAt⟩] ∧
      i1 ≠ i2 ∧ i1 ≠ i3 ∧ i2 ≠ i3) := by
  refine ⟨?_, ?_, ?_, ?_, ?_, ?_⟩
  · rw [GetByClient_noFault]
  · rw [GetByClient_noFault]
    exact List.Perm.refl _
  · intro r
    rw [GetByClient_noFault]
    simp [DB.selectByClient, List.mem_filter]
  · intro r
    rw [GetByClient_noFault]
    simp only [DB.selectByClient]
    by_cases hc : r.Client = c
    · rw [if_pos hc]
      exact List.count_filter (by simpa using hc)
    · rw [if_neg hc, List.count_eq_zero, List.mem_filter]
      rintro ⟨_, h⟩
      exact hc (by simpa using h)
  · intro h
    rw [GetByClient_noFault, selectByClient_eq_nil db c h]
  · intro d1 d2 d3 p1 p2 p3 i1 i2 i3 db1 db2 db3 hno h1 h2 h3 a1 a2 a3
    obtain ⟨_, e1⟩ := Add_ok d1 db db1 p1 i1 a1
    obtain ⟨_, e2⟩ := Add_ok d2 db1 db2 p2 i2 a2
    obtain ⟨_, e3⟩ := Add_ok d3 db2 db3 p3 i3 a3
    have f2 := Add_fresh d2 db1 db2 p2 i2 a2
    have f3 := Add_fresh d3 db2 db3 p3 i3 a3
    have h0 := selectByClient_eq_nil db c hno
    unfold DB.selectByClient at h0
    have hsel : db3.selectByClient c =
        [⟨i1, c, p1.Status, p1.Address, p1.CreatedAt⟩,
         ⟨i2, c, p2.Status, p2.Address, p2.CreatedAt⟩,
         ⟨i3, c, p3.Status, p3.Address, p3.CreatedAt⟩] := by
      unfold DB.selectByClient
      rw [e3, e2, e1]
      simp only [List.filter_append, h0, List.nil_append]
      simp [List.filter, h1, h2, h3]
    have n12 : i1 < i2 := by
      have := f2 ⟨i1, p1.Client, p1.Status, p1.Address, p1.CreatedAt⟩ (by rw [e1]; simp)
      simpa using this
    have n13 : i1 < i3 := by
      have := f3 ⟨i1, p1.Client, p1.Status, p1.Address, p1.CreatedAt⟩ (by rw [e2, e1]; simp)
      simpa using this
    have n23 : i2 < i3 := by
      have := f3 ⟨i2, p2.Client, p2.Status, p2.Address, p2.CreatedAt⟩ (by rw [e2]; simp)
      simpa using this
    rw [GetByClient_noFault, hsel]
    exact ⟨rfl, List.Perm.refl _, by omega, by omega, by omega⟩

/-- Witness for C8: client 9 has no parcel in a table holding one parcel of
client 5; three parcels of client 9 are added and then listed. -/
theorem getByClient_filters_witness :
    GetByClient Driver.noFault ⟨[⟨1, 5, "sent", "x", "t0"⟩], 1⟩ 9 = ([], none) ∧
    ((GetByClient Driver.noFault
        ⟨[⟨1, 5, "sent", "x", "t0"⟩, ⟨2, 9, "registered", "a", "t1"⟩,
          ⟨3, 9, "registered", "b", "t2"⟩, ⟨4, 9, "registered", "c", "t3"⟩], 4⟩ 9).2 = none ∧
      List.Perm (GetByClient Driver.noFault
        ⟨[⟨1, 5, "sent", "x", "t0"⟩, ⟨2, 9, "registered", "a", "t1"⟩,
          ⟨3, 9, "registered", "b", "t2"⟩, ⟨4, 9, "registered", "c", "t3"⟩], 4⟩ 9).1
        [⟨2, 9, "registered", "a", "t1"⟩, ⟨3, 9, "registered", "b", "t2"⟩,
         ⟨4, 9, "registered", "c", "t3"⟩] ∧
      (2 : Int) ≠ 3 ∧ (2 : Int) ≠ 4 ∧ (3 : Int) ≠ 4) :=
  ⟨(getByClient_filters ⟨[⟨1, 5, "sent", "x", "t0"⟩], 1⟩ 9).2.2.2.2.1 (by decide),
   (getByClient_filters ⟨[⟨1, 5, "sent", "x", "t0"⟩], 1⟩ 9).2.2.2.2.2
      Driver.noFault Driver.noFault Driver.noFault
      ⟨0, 9, "registered", "a", "t1"⟩ ⟨0, 9, "registered", "b", "t2"⟩
      ⟨0, 9, "registered", "c", "t3"⟩ 2 3 4
      ⟨[⟨1, 5, "sent", "x", "t0"⟩, ⟨2, 9, "registered", "a", "t1"⟩], 2⟩
      ⟨[⟨1, 5, "sent", "x", "t0"⟩, ⟨2, 9, "registered", "a", "t1"⟩,
        ⟨3, 9, "registered", "b", "t2"⟩], 3⟩
      ⟨[⟨1, 5, "sent", "x", "t0"⟩, ⟨2, 9, "registered", "a", "t1"⟩,
        ⟨3, 9, "registered", "b", "t2"⟩, ⟨4, 9, "registered", "c", "t3"⟩], 4⟩
      (by decide) (by decide) (by decide) (by decide) (by decide) (by decide) (by decide)⟩

/-- C9. Silent success on zero affected rows: with a driver that raises no
error, `SetAddress` and `Delete` return no error for every table and number,
and `SetStatus` returns an error exactly when the status is none of
`registered`, `sent`, `delivered`; when no row has the number all three leave
the table unchanged, and when every row of that number fails the `registered`
guard `SetAddress` and `Delete` leave the table unchanged. -/
theorem silent_success (db : DB) (n : Int) (addr s : String) :
    (SetAddress Driver.noFault db n addr).1 = none ∧
    (Delete Driver.noFault db n).1 = none ∧
    ((SetStatus Driver.noFault db n s).1 ≠ none ↔
      ¬ (s = "registered" ∨ s = "sent" ∨ s = "delivered")) ∧
    ((∀ r ∈ db.rows, r.Number ≠ n) →
      SetAddress Driver.noFault db n addr = (none, db) ∧
      Delete Driver.noFault db n = (none, db) ∧
      (SetStatus Driver.noFault db n s).2 = db) ∧
    ((∀ r ∈ db.rows, r.Number = n → r.Status ≠ "registered") →
      SetAddress Driver.noFault db n addr = (none, db) ∧
      Delete Driver.noFault db n = (none, db)) := by
  refine ⟨rfl, rfl, ?_, ?_, ?_⟩
  · constructor
    · intro h hs
      rw [SetStatus_noFault db n s hs] at h
      exact h rfl
    · intro hs
      have h1 : s ≠ "registered" := fun e => hs (Or.inl e)
      have h2 : s ≠ "sent" := fun e => hs (Or.inr (Or.inl e))
      have h3 : s ≠ "delivered" := fun e => hs (Or.inr (Or.inr e))
      unfold SetStatus
      rw [lookup_invalid s h1 h2 h3]
      simp
  · intro h
    have hg : ∀ r ∈ db.rows, r.Number = n → r.Status ≠ ParcelStatusRegistered :=
      fun r hr hn => absurd hn (h r hr)
    refine ⟨?_, ?_, ?_⟩
    · rw [SetAddress_noFault, updateAddress_eq_self db addr n _ hg]
    · rw [Delete_noFault, delete_eq_self db n _ hg]
    · rcases SetStatus_db Driver.noFault db n s with e | e
      · exact e
      · rw [e, updateStatus_eq_self db s n h]
  · intro hg
    have hg' : ∀ r ∈ db.rows, r.Number = n → r.Status ≠ ParcelStatusRegistered := hg
    refine ⟨?_, ?_⟩
    · rw [SetAddress_noFault, updateAddress_eq_self db addr n _ hg']
    · rw [Delete_noFault, delete_eq_self db n _ hg']

/-- Witness for C9: number 7 names no row and number 1 names a sent parcel. -/
theorem silent_success_witness :
    (SetAddress Driver.noFault ⟨[⟨1, 5, "sent", "x", "t0"⟩], 1⟩ 7 "y"
        = (none, ⟨[⟨1, 5, "sent", "x", "t0"⟩], 1⟩) ∧
      Delete Driver.noFault ⟨[⟨1, 5, "sent", "x", "t0"⟩], 1⟩ 7
        = (none, ⟨[⟨1, 5, "sent", "x", "t0"⟩], 1⟩) ∧
      (SetStatus Driver.noFault ⟨[⟨1, 5, "sent", "x", "t0"⟩], 1⟩ 7 "delivered").2
        = ⟨[⟨1, 5, "sent", "x", "t0"⟩], 1⟩) ∧
    (SetAddress Driver.noFault ⟨[⟨1, 5, "sent", "x", "t0"⟩], 1⟩ 1 "y"
        = (none, ⟨[⟨1, 5, "sent", "x", "t0"⟩], 1⟩) ∧
      Delete Driver.noFault ⟨[⟨1, 5, "sent", "x", "t0"⟩], 1⟩ 1
        = (none, ⟨[⟨1, 5, "sent", "x", "t0"⟩], 1⟩)) :=
  ⟨(silent_success ⟨[⟨1, 5, "sent", "x", "t0"⟩], 1⟩ 7 "y" "delivered").2.2.2.1 (by decide),
   (silent_success ⟨[⟨1, 5, "sent", "x", "t0"⟩], 1⟩ 1 "y" "delivered").2.2.2.2 (by decide)⟩

/-- C10. Frame of the mutators, for every driver, table and arguments:
`SetStatus n s` keeps the rows in place and changes at most the status of rows
numbered `n`; `SetAddress n a` keeps the rows in place and changes at most the
address of rows numbered `n`; `Delete n` keeps a sublist of the rows that still
holds every row with another number; `Add` keeps every stored row as it was. So
no operation changes the number, client or creation time of a row. -/
theorem mutators_frame (d : Driver) (db : DB) (n : Int) (s a : String) (p : Parcel) :
    List.Forall₂ (fun r r' => r'.Number = r.Number ∧ r'.Client = r.Client ∧
        r'.Address = r.Address ∧ r'.CreatedAt = r.CreatedAt ∧ (r.Number ≠ n → r' = r))
      db.rows (SetStatus d db n s).2.rows ∧
    List.Forall₂ (fun r r' => r'.Number = r.Number ∧ r'.Client = r.Client ∧
        r'.Status = r.Status ∧ r'.CreatedAt = r.CreatedAt ∧ (r.Number ≠ n → r' = r))
      db.rows (SetAddress d db n a).2.rows ∧
    (List.Sublist (Delete d db n).2.rows db.rows ∧
      (Delete d db n).2.rows.filter (fun r => decide (r.Number ≠ n))
        = db.rows.filter (fun r => decide (r.Number ≠ n))) ∧
    db.rows <+: (Add d db p).2.rows := by
  refine ⟨?_, ?_, ?_, ?_⟩
  · rcases SetStatus_db d db n s with e | e
    · rw [e, List.forall₂_same]
      intro r _
      exact ⟨rfl, rfl, rfl, rfl, fun _ => rfl⟩
    · rw [e]
      unfold DB.updateStatus
      rw [List.forall₂_map_right_iff, List.forall₂_same]
      intro r _
      by_cases h : r.Number = n
      · simp [h]
      · simp [h]
  · rcases SetAddress_db d db n a with e | e
    · rw [e, List.forall₂_same]
      intro r _
      exact ⟨rfl, rfl, rfl, rfl, fun _ => rfl⟩
    · rw [e]
      unfold DB.updateAddress
      rw [List.forall₂_map_right_iff, List.forall₂_same]
      intro r _
      by_cases h : r.Number = n ∧ r.Status = ParcelStatusRegistered
      · simp [h]
      · rw [if_neg h]
        exact ⟨rfl, rfl, rfl, rfl, fun _ => rfl⟩
  · rcases Delete_db d db n with e | e
    · rw [e]
      exact ⟨List.Sublist.refl _, rfl⟩
    · rw [e]
      unfold DB.delete
      refine ⟨List.filter_sublist _, ?_⟩
      simp only [List.filter_filter]
      apply List.filter_congr
      intro r _
      by_cases h : r.Number = n <;> simp [h]
  · rcases Add_rows d db p with e | e
    · rw [e]
    · rw [e]
      exact List.prefix_append _ _

end ParcelStore
